import Mathlib

/-
Shallow embedding of the playback coordination layer of the Mariela repository:
the TrackPlayer unit (src/unnamed/part_001, TrackPlayer.tsx) and the album
Player playlist controller (src/src/components/Player.tsx).  Times and ratios
are rationals; the media pipeline (the HTML audio element) is an explicit
record, and every React event handler becomes a function from state to state
together with the list of pipeline commands and broadcasts it issues.
-/

namespace Mariela

/-- Clamp a rational into the unit interval, as `Math.min(1, Math.max(0, x))`
in the source. -/
def clamp01 (x : ℚ) : ℚ := min 1 (max 0 x)

namespace TrackPlayer

/-- Observable state of the HTML audio element backing one TrackPlayer.
`paused` flips synchronously on `play()` / `pause()` calls (HTML media
semantics); the `play` / `pause` DOM events that update the React state are
delivered later as separate pipeline events. An unknown duration (NaN before
metadata) is modelled as 0, matching the falsy checks in the source. -/
structure AudioState where
  paused : Bool
  currentTime : ℚ
  duration : ℚ
deriving Repr, DecidableEq

/-- React state of one TrackPlayer component (src/unnamed/part_001): the
useState fields `isReady`, `isPlaying`, `progress`, `isScrubbing`,
`scrubProgress`, `duration`, `currentTime`, plus the audio element. -/
structure TPState where
  audio : AudioState
  isReady : Bool
  isPlaying : Bool
  progress : ℚ
  isScrubbing : Bool
  scrubProgress : ℚ
  duration : ℚ
  currentTime : ℚ
deriving Repr, DecidableEq

/-- Commands sent to the pipeline and broadcasts published on the window
event bus by one handler invocation. `seekSet t` is an assignment
`audio.currentTime = t` (a real seek); `broadcast id` is
`window.dispatchEvent(new CustomEvent("trackplayer:play", {detail: {id}}))`. -/
inductive TPOut where
  | broadcast (id : String)
  | playRequest
  | pauseRequest
  | seekSet (t : ℚ)
deriving Repr, DecidableEq

/-- Initial component state: all useState initialisers are false / 0, and the
fresh audio element is paused with no known duration. -/
def tpInit : TPState :=
  { audio := { paused := true, currentTime := 0, duration := 0 }
    isReady := false
    isPlaying := false
    progress := 0
    isScrubbing := false
    scrubProgress := 0
    duration := 0
    currentTime := 0 }

/-- Source `getRatioFromClientX`: `(clientX - rect.left) / rect.width`,
clamped to the unit interval. The bar element is assumed mounted (the source
returns 0 for a missing bar). -/
def getRatioFromClientX (barLeft barWidth clientX : ℚ) : ℚ :=
  clamp01 ((clientX - barLeft) / barWidth)

/-- Source `seekToRatio`: no-op when the pipeline duration is falsy, else set
`audio.currentTime` (a real seek command), the `currentTime` state and the
`progress` state. -/
def seekToRatio (ratio : ℚ) (s : TPState) : TPState × List TPOut :=
  if s.audio.duration = 0 then (s, [])
  else
    let newTime := ratio * s.audio.duration
    ({ s with audio := { s.audio with currentTime := newTime }
              currentTime := newTime
              progress := ratio },
     [TPOut.seekSet newTime])

/-- Source `broadcastPlay`: publish this unit's identity on the bus. -/
def broadcastPlay (playerId : String) : List TPOut :=
  [TPOut.broadcast playerId]

/-- Source `togglePlay`: dispatch on the live `audio.paused` flag. In the
play branch the source calls `broadcastPlay()` and then `audio.play()`, which
flips `paused` to false synchronously; confirmation (the `play` DOM event)
arrives later. In the pause branch `audio.pause()` flips `paused` to true. -/
def togglePlay (playerId : String) (s : TPState) : TPState × List TPOut :=
  let s1 := { s with isReady := true }
  if s1.audio.paused then
    ({ s1 with audio := { s1.audio with paused := false } },
     broadcastPlay playerId ++ [TPOut.playRequest])
  else
    ({ s1 with audio := { s1.audio with paused := true } },
     [TPOut.pauseRequest])

/-- Pipeline `play` event: `handlePlay` sets `isPlaying`, and the
`broadcastPlay` listener registered on the same event publishes again. -/
def handlePlayEvent (playerId : String) (s : TPState) : TPState × List TPOut :=
  ({ s with audio := { s.audio with paused := false }, isPlaying := true },
   broadcastPlay playerId)

/-- Pipeline `pause` event: `handlePause` clears `isPlaying`. -/
def handlePauseEvent (s : TPState) : TPState :=
  { s with audio := { s.audio with paused := true }, isPlaying := false }

/-- Source `markReady`: set `isReady` and, when the pipeline duration is
truthy, copy it into the `duration` state. -/
def markReady (s : TPState) : TPState :=
  let s1 := { s with isReady := true }
  if s1.audio.duration = 0 then s1 else { s1 with duration := s1.audio.duration }

/-- Pipeline metadata event (`loadedmetadata` / `canplay`): the pipeline now
reports duration `d`, then the `markReady` listener runs. -/
def handleLoadedMetadata (d : ℚ) (s : TPState) : TPState :=
  markReady { s with audio := { s.audio with duration := d } }

/-- Source `handleTimeUpdate`: the pipeline advanced `audio.currentTime` to
`t` and fired `timeupdate`; the handler returns early on a falsy duration,
else records the time and, when not scrubbing, the ratio. -/
def handleTimeUpdate (t : ℚ) (s : TPState) : TPState :=
  let s1 := { s with audio := { s.audio with currentTime := t } }
  if s1.audio.duration = 0 then s1
  else
    let ratio := s1.audio.currentTime / s1.audio.duration
    let s2 := { s1 with currentTime := s1.audio.currentTime }
    if s2.isScrubbing then s2 else { s2 with progress := ratio }

/-- Source `handleEnded`: reset the playing flag and all progress state.
Only the React handler effects are modelled; the pipeline position reached at
the end is carried by the preceding `timeupdate` events. -/
def handleEnded (s : TPState) : TPState :=
  { s with isPlaying := false, progress := 0, scrubProgress := 0, currentTime := 0 }

/-- Source `handleExternalPlay`: a "trackplayer:play" broadcast arrives with
payload `senderId` (`none` models a missing `detail`). A different identity
while the pipeline is not paused calls `audio.pause()`; our own identity or a
missing detail is ignored. No broadcast is published here. -/
def handleExternalPlay (playerId : String) (senderId : Option String)
    (s : TPState) : TPState × List TPOut :=
  match senderId with
  | none => (s, [])
  | some sid =>
    if sid = playerId then (s, [])
    else if s.audio.paused then (s, [])
    else ({ s with audio := { s.audio with paused := true } }, [TPOut.pauseRequest])

/-- Source `handleProgressClick` (click to seek): clamp the pointer ratio and
commit it as a seek. -/
def handleProgressClick (barLeft barWidth clientX : ℚ) (s : TPState) :
    TPState × List TPOut :=
  seekToRatio (getRatioFromClientX barLeft barWidth clientX) s

/-- Source `handleMouseDown`: enter scrubbing mode with the provisional
pointer ratio; no pipeline command is issued. -/
def handleMouseDown (barLeft barWidth clientX : ℚ) (s : TPState) : TPState :=
  { s with isScrubbing := true
           scrubProgress := getRatioFromClientX barLeft barWidth clientX }

/-- Source `handleMouseMove` (window listener during a drag): update the
provisional ratio only. -/
def handleMouseMove (barLeft barWidth clientX : ℚ) (s : TPState) : TPState :=
  { s with scrubProgress := getRatioFromClientX barLeft barWidth clientX }

/-- Source `handleMouseUp`: exit scrubbing mode and commit the release ratio
as a real seek. -/
def handleMouseUp (barLeft barWidth clientX : ℚ) (s : TPState) :
    TPState × List TPOut :=
  seekToRatio (getRatioFromClientX barLeft barWidth clientX)
    { s with isScrubbing := false }

/-- Source `handleTouchStart`: with an active touch point, enter scrubbing
mode with its provisional ratio; with none, return without any change. -/
def handleTouchStart (touch : Option ℚ) (barLeft barWidth : ℚ) (s : TPState) :
    TPState :=
  match touch with
  | none => s
  | some x =>
    { s with isScrubbing := true
             scrubProgress := getRatioFromClientX barLeft barWidth x }

/-- Source `handleTouchMove`: with an active touch point, update the
provisional ratio; with none, return without any change and without a seek. -/
def handleTouchMove (touch : Option ℚ) (barLeft barWidth : ℚ) (s : TPState) :
    TPState × List TPOut :=
  match touch with
  | none => (s, [])
  | some x =>
    ({ s with scrubProgress := getRatioFromClientX barLeft barWidth x }, [])

/-- Source `handleTouchEnd`: with a changed touch point, exit scrubbing mode
and commit its ratio as a seek; with none, only exit scrubbing mode. -/
def handleTouchEnd (touch : Option ℚ) (barLeft barWidth : ℚ) (s : TPState) :
    TPState × List TPOut :=
  match touch with
  | none => ({ s with isScrubbing := false }, [])
  | some x =>
    seekToRatio (getRatioFromClientX barLeft barWidth x)
      { s with isScrubbing := false }

/-- Display progress of the component, source line
`currentProgress = isScrubbing ? scrubProgress : progress`. -/
def displayRatio (s : TPState) : ℚ :=
  if s.isScrubbing then s.scrubProgress else s.progress

/-- Progress formula of the specification data model: position over duration
clamped to the unit interval, 0 while the duration is 0 or unknown. -/
def displayFormula (s : TPState) : ℚ :=
  if s.duration = 0 then 0 else clamp01 (s.currentTime / s.duration)

/-- Events one mounted TrackPlayer can react to: pipeline callbacks, the user
interactions on this unit, and bus deliveries. Pointer events carry the live
bar geometry and coordinate; touch events carry the optional first touch
point's coordinate. -/
inductive TPEvent where
  | loadedMetadata (d : ℚ)
  | playEvent
  | pauseEvent
  | timeUpdate (t : ℚ)
  | ended
  | userToggle
  | externalPlay (sender : Option String)
  | click (barLeft barWidth clientX : ℚ)
  | mouseDown (barLeft barWidth clientX : ℚ)
  | mouseMove (barLeft barWidth clientX : ℚ)
  | mouseUp (barLeft barWidth clientX : ℚ)
  | touchStart (touch : Option ℚ) (barLeft barWidth : ℚ)
  | touchMove (touch : Option ℚ) (barLeft barWidth : ℚ)
  | touchEnd (touch : Option ℚ) (barLeft barWidth : ℚ)
deriving Repr, DecidableEq

/-- One event turn of the TrackPlayer with identity `playerId`. -/
def tpStep (playerId : String) (s : TPState) : TPEvent → TPState × List TPOut
  | .loadedMetadata d => (handleLoadedMetadata d s, [])
  | .playEvent => handlePlayEvent playerId s
  | .pauseEvent => (handlePauseEvent s, [])
  | .timeUpdate t => (handleTimeUpdate t s, [])
  | .ended => (handleEnded s, [])
  | .userToggle => togglePlay playerId s
  | .externalPlay sender => handleExternalPlay playerId sender s
  | .click l w x => handleProgressClick l w x s
  | .mouseDown l w x => (handleMouseDown l w x s, [])
  | .mouseMove l w x => (handleMouseMove l w x s, [])
  | .mouseUp l w x => handleMouseUp l w x s
  | .touchStart touch l w => (handleTouchStart touch l w s, [])
  | .touchMove touch l w => handleTouchMove touch l w s
  | .touchEnd touch l w => handleTouchEnd touch l w s

/-- Run a list of events from a state, keeping only the state. -/
def tpRun (playerId : String) (s : TPState) (es : List TPEvent) : TPState :=
  es.foldl (fun st e => (tpStep playerId st e).1) s

/-- Pipeline sanity of an event stream for a medium whose true duration is
`D`: metadata events report `D`, reported positions lie within the medium,
and every touch-end delivery carries the ended touch point (as genuine
browser `touchend` events do). -/
def validEv (D : ℚ) : TPEvent → Bool
  | .loadedMetadata d => d = D
  | .timeUpdate t => 0 ≤ t ∧ t ≤ D
  | .touchEnd none _ _ => false
  | _ => true

/-- Inductive invariant for the display-progress analysis: the session
duration mirrors the pipeline duration, everything is zero before metadata,
and outside scrubbing the cached `progress` agrees with the specification's
display formula. -/
def C2Inv (D : ℚ) (s : TPState) : Prop :=
  (s.audio.duration = 0 ∨ s.audio.duration = D) ∧
  s.duration = s.audio.duration ∧
  (s.audio.duration = 0 → s.progress = 0 ∧ s.currentTime = 0) ∧
  (s.isScrubbing = false → s.progress = displayFormula s)

/-- A whole drag sequence of the TrackPlayer: press, the listed moves, then
release. The press and move handlers issue no pipeline command in the source,
so the commands of the sequence are exactly those of the release. -/
def tpMouseDrag (barLeft barWidth : ℚ) (x0 : ℚ) (xs : List ℚ) (xn : ℚ)
    (s : TPState) : TPState × List TPOut :=
  handleMouseUp barLeft barWidth xn
    (xs.foldl (fun st x => handleMouseMove barLeft barWidth x st)
      (handleMouseDown barLeft barWidth x0 s))

/-- A TrackPlayer that has loaded metadata for a 10 second track and is
paused at the start. -/
def tpReady : TPState :=
  { audio := { paused := true, currentTime := 0, duration := 10 }
    isReady := true
    isPlaying := false
    progress := 0
    isScrubbing := false
    scrubProgress := 0
    duration := 10
    currentTime := 0 }

/-- A TrackPlayer currently audible at 2 of 10 seconds. -/
def tpPlaying : TPState :=
  { tpReady with audio := { paused := false, currentTime := 2, duration := 10 }
                 isPlaying := true
                 progress := 1/5
                 currentTime := 2 }

/-- A TrackPlayer in the middle of a scrub at overlay ratio one half. -/
def tpScrubbing : TPState :=
  { tpPlaying with isScrubbing := true, scrubProgress := 1/2 }

/-- Event trace exercising the defensive no-touch branch of `handleTouchEnd`:
metadata for a 10 second track, touch scrub started at ratio 0.2, a position
update to 9 seconds during the scrub, then a touch-end carrying no touch
point. -/
def c2BadTrace : List TPEvent :=
  [TPEvent.loadedMetadata 10, TPEvent.touchStart (some 20) 0 100,
   TPEvent.timeUpdate 9, TPEvent.touchEnd none 0 100]

end TrackPlayer

namespace Player

/-- Track fields the Player controller reads: `url` bound to the audio
element and the optional nominal `duration`. -/
structure PLTrack where
  url : String
  duration : Option ℚ
deriving Repr, DecidableEq

/-- Audio element owned by the Player: source, live paused flag, position
and pipeline duration. -/
structure PLAudio where
  src : String
  paused : Bool
  currentTime : ℚ
  duration : ℚ
deriving Repr, DecidableEq

/-- React state of the album Player (src/src/components/Player.tsx):
`currentIndex`, `isPlaying`, `isScrubbing`, `duration`, `currentTime`, the
audio ref (`audioMounted` models `audioRef.current` being non-null). -/
structure PLState where
  audio : PLAudio
  audioMounted : Bool
  currentIndex : ℤ
  isPlaying : Bool
  isScrubbing : Bool
  duration : ℚ
  currentTime : ℚ
deriving Repr, DecidableEq

/-- Pipeline commands issued by the Player's handlers. -/
inductive PLOut where
  | playRequest
  | seekSet (t : ℚ)
deriving Repr, DecidableEq

/-- JavaScript remainder on the playlist indices. `a % 0` is NaN in
JavaScript, modelled as `none`; for the nonnegative operands arising here
`Int.tmod` coincides with the JavaScript `%`. -/
def jsRem (a b : ℤ) : Option ℤ :=
  if b = 0 then none else some (Int.tmod a b)

/-- JavaScript array indexing `tracks[i]`: `undefined` (`none`) outside
`[0, length)`. -/
def tracksAt (tracks : List PLTrack) (i : ℤ) : Option PLTrack :=
  if 0 ≤ i then tracks[i.toNat]? else none

/-- Source `loadTrack(index, autoplay)`: return unchanged when the audio ref
is missing or `tracks[index]` is undefined (a `none` index models the NaN
produced by `% 0`); otherwise set the active index, rebind and reset the
audio element, reset the session, and either request playback (autoplay) or
clear the playing flag. `audio.load()` resets the element to a paused state
with no position and no known duration yet. -/
def loadTrack (tracks : List PLTrack) (index : Option ℤ) (autoplay : Bool)
    (s : PLState) : PLState × List PLOut :=
  if s.audioMounted = false then (s, [])
  else
    match index with
    | none => (s, [])
    | some i =>
      match tracksAt tracks i with
      | none => (s, [])
      | some track =>
        let s1 := { s with
          currentIndex := i
          audio := { src := track.url, paused := true, currentTime := 0, duration := 0 }
          currentTime := 0
          duration := track.duration.getD 0 }
        if autoplay then
          ({ s1 with audio := { s1.audio with paused := false } }, [PLOut.playRequest])
        else
          ({ s1 with isPlaying := false }, [])

/-- Source `playNext`: `(currentIndex + 1) % totalTracks`, then
`loadTrack(nextIndex, true)`. -/
def playNext (tracks : List PLTrack) (s : PLState) : PLState × List PLOut :=
  loadTrack tracks (jsRem (s.currentIndex + 1) tracks.length) true s

/-- Source `playPrev`: `(currentIndex - 1 + totalTracks) % totalTracks`,
then `loadTrack(prevIndex, true)`. -/
def playPrev (tracks : List PLTrack) (s : PLState) : PLState × List PLOut :=
  loadTrack tracks (jsRem (s.currentIndex - 1 + tracks.length) tracks.length) true s

/-- Source `handleEnded` (pipeline `ended` event): clear the playing flag
and advance to the next track. -/
def handleEnded (tracks : List PLTrack) (s : PLState) : PLState × List PLOut :=
  playNext tracks { s with isPlaying := false }

/-- Source `seekToRatio` of Player.tsx: no-op without the audio ref or with
a falsy pipeline duration, else jump the pipeline and the session position to
`ratio * audio.duration` (no clamping inside this function). -/
def seekToRatio (ratio : ℚ) (s : PLState) : PLState × List PLOut :=
  if s.audioMounted = false then (s, [])
  else if s.audio.duration = 0 then (s, [])
  else
    let newTime := ratio * s.audio.duration
    ({ s with audio := { s.audio with currentTime := newTime }
              currentTime := newTime },
     [PLOut.seekSet newTime])

/-- Source `handleProgressClick` of Player.tsx: clamp the pointer ratio over
the bar geometry and seek to it. -/
def handleProgressClick (barLeft barWidth clientX : ℚ) (s : PLState) :
    PLState × List PLOut :=
  seekToRatio (clamp01 ((clientX - barLeft) / barWidth)) s

/-- Source `handleMouseDown` of Player.tsx: set the scrubbing flag and then
immediately commit the press position via `handleProgressClick`, which issues
a real seek. -/
def handleMouseDown (barLeft barWidth clientX : ℚ) (s : PLState) :
    PLState × List PLOut :=
  handleProgressClick barLeft barWidth clientX { s with isScrubbing := true }

/-- Source `handleMove` of Player.tsx's drag (window mousemove listener):
each move also goes through `handleProgressClick`, a real seek. -/
def handleMouseMove (barLeft barWidth clientX : ℚ) (s : PLState) :
    PLState × List PLOut :=
  handleProgressClick barLeft barWidth clientX s

/-- Source `handleUp` of Player.tsx's drag: clear the scrubbing flag and
commit the release position. -/
def handleMouseUp (barLeft barWidth clientX : ℚ) (s : PLState) :
    PLState × List PLOut :=
  handleProgressClick barLeft barWidth clientX { s with isScrubbing := false }

/-- A whole drag sequence of Player.tsx: press, the listed moves, release,
with all issued commands concatenated in order. -/
def mouseDrag (barLeft barWidth : ℚ) (x0 : ℚ) (xs : List ℚ) (xn : ℚ)
    (s : PLState) : PLState × List PLOut :=
  let p1 := handleMouseDown barLeft barWidth x0 s
  let p2 := xs.foldl
    (fun acc x =>
      let q := handleMouseMove barLeft barWidth x acc.1
      (q.1, acc.2 ++ q.2))
    p1
  let p3 := handleMouseUp barLeft barWidth xn p2.1
  (p3.1, p2.2 ++ p3.2)

/-- A two track demo playlist. -/
def demoTracks : List PLTrack :=
  [{ url := "t0", duration := some 10 }, { url := "t1", duration := some 20 }]

/-- A one track demo playlist. -/
def demoSingle : List PLTrack :=
  [{ url := "t0", duration := some 5 }]

/-- A mounted Player controller playing track 0 of a loaded album, with the
pipeline reporting a duration of 10 seconds. -/
def plReady : PLState :=
  { audio := { src := "t0", paused := false, currentTime := 0, duration := 10 }
    audioMounted := true
    currentIndex := 0
    isPlaying := true
    isScrubbing := false
    duration := 10
    currentTime := 0 }

end Player

theorem clamp01_nonneg (x : ℚ) : 0 ≤ clamp01 x :=
  le_min zero_le_one (le_max_left 0 x)

theorem clamp01_le_one (x : ℚ) : clamp01 x ≤ 1 :=
  min_le_left 1 (max 0 x)

theorem clamp01_eq_self {x : ℚ} (h0 : 0 ≤ x) (h1 : x ≤ 1) : clamp01 x = x := by
  unfold clamp01
  rw [max_eq_right h0, min_eq_right h1]

/-- C1: a "playback started" broadcast with a different identity arriving
while this unit's pipeline is audible pauses the pipeline (the subsequent
pause confirmation clears the playing flag) and publishes nothing further,
while a broadcast carrying the unit's own identity leaves the state unchanged
and publishes nothing. -/
theorem c1_external_pause_no_rebroadcast (playerId sid : String)
    (s : TrackPlayer.TPState) (hne : sid ≠ playerId)
    (hplay : s.audio.paused = false) :
    (TrackPlayer.handleExternalPlay playerId (some sid) s).1.audio.paused = true ∧
    (TrackPlayer.handlePauseEvent
      (TrackPlayer.handleExternalPlay playerId (some sid) s).1).isPlaying = false ∧
    (∀ o ∈ (TrackPlayer.handleExternalPlay playerId (some sid) s).2,
      ∀ i, o ≠ TrackPlayer.TPOut.broadcast i) ∧
    TrackPlayer.handleExternalPlay playerId (some playerId) s = (s, []) := by
  unfold TrackPlayer.handleExternalPlay TrackPlayer.handlePauseEvent
  simp [hne, hplay]

theorem c1_witness :
    ("a" : String) ≠ "b" ∧
    TrackPlayer.tpPlaying.audio.paused = false ∧
    (TrackPlayer.handleExternalPlay "b" (some "a")
      TrackPlayer.tpPlaying).1.audio.paused = true ∧
    TrackPlayer.handleExternalPlay "b" (some "b") TrackPlayer.tpPlaying =
      (TrackPlayer.tpPlaying, []) := by
  have h := c1_external_pause_no_rebroadcast "b" "a" TrackPlayer.tpPlaying
    (by decide) (by rfl)
  exact ⟨by decide, by rfl, h.1, h.2.2.2⟩

/-- C8: two user toggles in rapid succession, before any pipeline
confirmation event, issue exactly one playback start request and exactly one
broadcast, because `togglePlay` dispatches on the pipeline's live paused flag
(which `play()` flips synchronously), not on the component's cached state. -/
theorem c8_double_toggle (playerId : String) (s : TrackPlayer.TPState)
    (h : s.audio.paused = true) :
    (TrackPlayer.togglePlay playerId s).2 =
      [TrackPlayer.TPOut.broadcast playerId, TrackPlayer.TPOut.playRequest] ∧
    (TrackPlayer.togglePlay playerId
      (TrackPlayer.togglePlay playerId s).1).2 = [TrackPlayer.TPOut.pauseRequest] ∧
    ((TrackPlayer.togglePlay playerId s).2 ++
      (TrackPlayer.togglePlay playerId (TrackPlayer.togglePlay playerId s).1).2).count
        (TrackPlayer.TPOut.broadcast playerId) = 1 ∧
    ((TrackPlayer.togglePlay playerId s).2 ++
      (TrackPlayer.togglePlay playerId (TrackPlayer.togglePlay playerId s).1).2).count
        TrackPlayer.TPOut.playRequest = 1 := by
  unfold TrackPlayer.togglePlay TrackPlayer.broadcastPlay
  simp [h, List.count_cons]

theorem c8_witness :
    TrackPlayer.tpReady.audio.paused = true ∧
    ((TrackPlayer.togglePlay "p" TrackPlayer.tpReady).2 ++
      (TrackPlayer.togglePlay "p"
        (TrackPlayer.togglePlay "p" TrackPlayer.tpReady).1).2).count
      (TrackPlayer.TPOut.broadcast "p") = 1 := by
  have h := c8_double_toggle "p" TrackPlayer.tpReady (by rfl)
  exact ⟨by rfl, h.2.2.1⟩

/-- C9 counterexample: in the middle of a touch scrub, a touch-move event
with no active touch point leaves the state completely unchanged — the unit
stays in scrubbing mode and no committed seek is issued — contrary to the
claim that such a move is treated as a release with a seek at the last
ratio. -/
theorem c9_counterexample :
    TrackPlayer.handleTouchMove none 0 100 TrackPlayer.tpScrubbing =
      (TrackPlayer.tpScrubbing, []) ∧
    TrackPlayer.tpScrubbing.isScrubbing = true := by
  exact ⟨rfl, rfl⟩

/-- C9 (amended): a touch-move event with no active touch point is ignored
entirely (state unchanged, no pipeline command); a touch-end event with no
active touch point exits scrubbing mode but issues no seek. -/
theorem c9_amended :
    (∀ (l w : ℚ) (s : TrackPlayer.TPState),
      TrackPlayer.handleTouchMove none l w s = (s, [])) ∧
    (∀ (l w : ℚ) (s : TrackPlayer.TPState),
      TrackPlayer.handleTouchEnd none l w s =
        ({ s with isScrubbing := false }, [])) := by
  exact ⟨fun _ _ _ => rfl, fun _ _ _ => rfl⟩

/-- C10: `next()` and `prev()` on an empty playlist are total no-ops: the
JavaScript index computation `(i ± 1) % 0` yields NaN, the track lookup
fails, and `loadTrack` returns before touching any state or issuing any
pipeline command. -/
theorem c10_empty_nav_noop (s : Player.PLState) :
    Player.playNext [] s = (s, []) ∧ Player.playPrev [] s = (s, []) := by
  unfold Player.playNext Player.playPrev Player.jsRem Player.loadTrack
  cases h : s.audioMounted <;> simp [h]

theorem tracksAt_eq_none {tracks : List Player.PLTrack} {i : ℤ}
    (h : i < 0 ∨ (tracks.length : ℤ) ≤ i) : Player.tracksAt tracks i = none := by
  unfold Player.tracksAt
  rcases h with h | h
  · rw [if_neg (not_le.mpr h)]
  · have h0 : 0 ≤ i := le_trans (Int.ofNat_nonneg _) h
    rw [if_pos h0]
    refine List.getElem?_eq_none ?_
    omega

theorem tracksAt_get {tracks : List Player.PLTrack} {i : ℤ}
    (h0 : 0 ≤ i) (hi : i < (tracks.length : ℤ)) :
    ∃ t, Player.tracksAt tracks i = some t := by
  unfold Player.tracksAt
  rw [if_pos h0]
  have hlt : i.toNat < tracks.length := by omega
  exact ⟨tracks[i.toNat], List.getElem?_eq_getElem hlt⟩

theorem loadTrack_some {tracks : List Player.PLTrack} {i : ℤ} {t : Player.PLTrack}
    (ht : Player.tracksAt tracks i = some t) (s : Player.PLState)
    (hm : s.audioMounted = true) :
    Player.loadTrack tracks (some i) true s =
      ({ s with currentIndex := i
                audio := { src := t.url, paused := false, currentTime := 0, duration := 0 }
                currentTime := 0
                duration := t.duration.getD 0 }, [Player.PLOut.playRequest]) := by
  unfold Player.loadTrack
  rw [hm]
  simp [ht]

/-- C4: with a playlist of length `N ≥ 1` and active index `i` in range,
`next()` computes `(i+1) mod N` and `prev()` computes `(i-1+N) mod N`, both
always in range (wraparound, never an error); for `N = 1` both leave the
index unchanged; and the controller's active index afterwards is exactly
that wrapped index. -/
theorem c4_wraparound (tracks : List Player.PLTrack) (s : Player.PLState)
    (N i : ℤ) (hN : 1 ≤ N) (hlen : (tracks.length : ℤ) = N)
    (hm : s.audioMounted = true) (hcur : s.currentIndex = i)
    (h0 : 0 ≤ i) (hiN : i < N) :
    Player.jsRem (i + 1) N = some ((i + 1) % N) ∧
    Player.jsRem (i - 1 + N) N = some ((i - 1 + N) % N) ∧
    (0 ≤ (i + 1) % N ∧ (i + 1) % N < N) ∧
    (0 ≤ (i - 1 + N) % N ∧ (i - 1 + N) % N < N) ∧
    (N = 1 → (i + 1) % N = i ∧ (i - 1 + N) % N = i) ∧
    (Player.playNext tracks s).1.currentIndex = (i + 1) % N ∧
    (Player.playPrev tracks s).1.currentIndex = (i - 1 + N) % N := by
  have hNpos : (0:ℤ) < N := by omega
  have hN0 : N ≠ 0 := by omega
  have hnext : Player.jsRem (i + 1) N = some ((i + 1) % N) := by
    unfold Player.jsRem
    rw [if_neg hN0, Int.tmod_eq_emod (by omega) (by omega)]
  have hprev : Player.jsRem (i - 1 + N) N = some ((i - 1 + N) % N) := by
    unfold Player.jsRem
    rw [if_neg hN0, Int.tmod_eq_emod (by omega) (by omega)]
  have hnr : 0 ≤ (i + 1) % N ∧ (i + 1) % N < N :=
    ⟨Int.emod_nonneg _ hN0, Int.emod_lt_of_pos _ hNpos⟩
  have hpr : 0 ≤ (i - 1 + N) % N ∧ (i - 1 + N) % N < N :=
    ⟨Int.emod_nonneg _ hN0, Int.emod_lt_of_pos _ hNpos⟩
  refine ⟨hnext, hprev, hnr, hpr, ?_, ?_, ?_⟩
  · intro h1
    constructor <;> omega
  · have hlt : (i + 1) % N < (tracks.length : ℤ) := by omega
    obtain ⟨t, ht⟩ := tracksAt_get hnr.1 hlt
    unfold Player.playNext
    rw [hcur, hlen, hnext, loadTrack_some ht s hm]
  · have hlt : (i - 1 + N) % N < (tracks.length : ℤ) := by omega
    obtain ⟨t, ht⟩ := tracksAt_get hpr.1 hlt
    unfold Player.playPrev
    rw [hcur, hlen, hprev, loadTrack_some ht s hm]

theorem c4_witness :
    (1:ℤ) ≤ 2 ∧ ((Player.demoTracks.length : ℤ) = 2) ∧
    (Player.playNext Player.demoTracks Player.plReady).1.currentIndex = 1 ∧
    (Player.playPrev Player.demoTracks Player.plReady).1.currentIndex = 1 := by
  have h := c4_wraparound Player.demoTracks Player.plReady 2 0
    (by norm_num) (by rfl) (by rfl) (by rfl) (by norm_num) (by norm_num)
  refine ⟨by norm_num, by rfl, ?_, ?_⟩
  · rw [h.2.2.2.2.2.1]
    decide
  · rw [h.2.2.2.2.2.2]
    decide

/-- C7: `loadTrack` on an empty playlist or an out-of-bounds index is a
silent no-op: it produces no pipeline command (in particular no error
signal) and returns the controller state — active index, bound source,
position, playing flag and all — unchanged. -/
theorem c7_invalid_navigation_noop (tracks : List Player.PLTrack) (i : ℤ)
    (autoplay : Bool) (s : Player.PLState)
    (h : tracks = [] ∨ i < 0 ∨ (tracks.length : ℤ) ≤ i) :
    Player.loadTrack tracks (some i) autoplay s = (s, []) := by
  have hnone : Player.tracksAt tracks i = none := by
    refine tracksAt_eq_none ?_
    rcases h with h | h
    · subst h
      simp only [List.length_nil, Nat.cast_zero]
      omega
    · exact h
  unfold Player.loadTrack
  cases hm : s.audioMounted <;> simp [hm, hnone]

theorem c7_witness :
    (Player.demoTracks = [] ∨ (5:ℤ) < 0 ∨ (Player.demoTracks.length : ℤ) ≤ 5) ∧
    Player.loadTrack Player.demoTracks (some 5) true Player.plReady =
      (Player.plReady, []) := by
  have hh : Player.demoTracks = [] ∨ (5:ℤ) < 0 ∨ (Player.demoTracks.length : ℤ) ≤ 5 := by
    right; right; norm_num [Player.demoTracks]
  exact ⟨hh, c7_invalid_navigation_noop Player.demoTracks 5 true Player.plReady hh⟩

/-- C6: when the pipeline reports `ended` on a playlist of length `N ≥ 1`
with active index `i`, the controller's auto-advance clears the playing flag
and calls `next()`: the active index becomes `(i+1) mod N`, the audio element
is rebound to that track's source, and exactly one playback start is
requested (autoplay); for `N = 1` the same track is reloaded and
autoplayed. -/
theorem c6_auto_advance (tracks : List Player.PLTrack) (s : Player.PLState)
    (N i : ℤ) (hN : 1 ≤ N) (hlen : (tracks.length : ℤ) = N)
    (hm : s.audioMounted = true) (hcur : s.currentIndex = i)
    (h0 : 0 ≤ i) (hiN : i < N) :
    (Player.handleEnded tracks s).1.currentIndex = (i + 1) % N ∧
    (Player.handleEnded tracks s).1.isPlaying = false ∧
    (Player.handleEnded tracks s).2 = [Player.PLOut.playRequest] ∧
    (∃ t, Player.tracksAt tracks ((i + 1) % N) = some t ∧
      (Player.handleEnded tracks s).1.audio.src = t.url ∧
      (Player.handleEnded tracks s).1.audio.paused = false) ∧
    (N = 1 → (i + 1) % N = i) := by
  subst hcur
  have hN0 : N ≠ 0 := by omega
  have hnr : 0 ≤ (s.currentIndex + 1) % N ∧ (s.currentIndex + 1) % N < N :=
    ⟨Int.emod_nonneg _ hN0, Int.emod_lt_of_pos _ (by omega)⟩
  have hlt : (s.currentIndex + 1) % N < (tracks.length : ℤ) := by omega
  obtain ⟨t, ht⟩ := tracksAt_get hnr.1 hlt
  have hnext : Player.jsRem (s.currentIndex + 1) N = some ((s.currentIndex + 1) % N) := by
    unfold Player.jsRem
    rw [if_neg hN0, Int.tmod_eq_emod (by omega) (by omega)]
  have hm2 : ({ s with isPlaying := false } : Player.PLState).audioMounted = true := hm
  unfold Player.handleEnded Player.playNext
  rw [hlen, hnext, loadTrack_some ht _ hm2]
  refine ⟨rfl, rfl, rfl, ⟨t, ht, rfl, rfl⟩, ?_⟩
  intro h1
  omega

theorem c6_witness :
    (1:ℤ) ≤ 1 ∧ ((Player.demoSingle.length : ℤ) = 1) ∧
    (Player.handleEnded Player.demoSingle Player.plReady).1.currentIndex = 0 ∧
    (Player.handleEnded Player.demoSingle Player.plReady).2 =
      [Player.PLOut.playRequest] ∧
    (Player.handleEnded Player.demoSingle Player.plReady).1.audio.src = "t0" := by
  have h := c6_auto_advance Player.demoSingle Player.plReady 1 0
    (by norm_num) (by rfl) (by rfl) (by rfl) (by norm_num) (by norm_num)
  refine ⟨by norm_num, by rfl, ?_, h.2.2.1, by rfl⟩
  rw [h.1]
  decide

theorem getRatio_at (barLeft barWidth r : ℚ) (hw : barWidth ≠ 0) :
    TrackPlayer.getRatioFromClientX barLeft barWidth (barLeft + r * barWidth) =
      clamp01 r := by
  unfold TrackPlayer.getRatioFromClientX
  rw [add_sub_cancel_left, mul_div_cancel_right₀ _ hw]

/-- C3: a ratio `r` requested through the seek path with a positive known
duration `D` produces position `clamp(r,0,1) * D`: every call site derives
the ratio from the pointer coordinate and clamps it before `seekToRatio`
runs, so even out-of-range `r` yields a position inside `[0, D]` (and the
handlers are total — nothing throws). Shown for the TrackPlayer unit and the
album Player controller, the two cited `seekToRatio` definitions. -/
theorem c3_seek_clamped (s : TrackPlayer.TPState) (sp : Player.PLState)
    (D barLeft barWidth r : ℚ)
    (hD : s.audio.duration = D) (hDp : 0 < D) (hw : barWidth ≠ 0)
    (hm : sp.audioMounted = true) (hpD : sp.audio.duration = D) :
    (TrackPlayer.handleProgressClick barLeft barWidth
        (barLeft + r * barWidth) s).1.audio.currentTime = clamp01 r * D ∧
    (TrackPlayer.handleProgressClick barLeft barWidth
        (barLeft + r * barWidth) s).1.currentTime = clamp01 r * D ∧
    (TrackPlayer.handleProgressClick barLeft barWidth
        (barLeft + r * barWidth) s).2 =
      [TrackPlayer.TPOut.seekSet (clamp01 r * D)] ∧
    (Player.handleProgressClick barLeft barWidth
        (barLeft + r * barWidth) sp).1.audio.currentTime = clamp01 r * D ∧
    (0 ≤ clamp01 r * D ∧ clamp01 r * D ≤ D) := by
  have hD0 : s.audio.duration ≠ 0 := by rw [hD]; exact ne_of_gt hDp
  have hpD0 : sp.audio.duration ≠ 0 := by rw [hpD]; exact ne_of_gt hDp
  have hbounds : 0 ≤ clamp01 r * D ∧ clamp01 r * D ≤ D := by
    constructor
    · exact mul_nonneg (clamp01_nonneg r) (le_of_lt hDp)
    · calc clamp01 r * D ≤ 1 * D :=
            mul_le_mul_of_nonneg_right (clamp01_le_one r) (le_of_lt hDp)
      _ = D := one_mul D
  have hDne : D ≠ 0 := ne_of_gt hDp
  refine ⟨?_, ?_, ?_, ?_, hbounds⟩
  · unfold TrackPlayer.handleProgressClick TrackPlayer.seekToRatio
    rw [getRatio_at _ _ _ hw]
    simp [hD, hDne]
  · unfold TrackPlayer.handleProgressClick TrackPlayer.seekToRatio
    rw [getRatio_at _ _ _ hw]
    simp [hD, hDne]
  · unfold TrackPlayer.handleProgressClick TrackPlayer.seekToRatio
    rw [getRatio_at _ _ _ hw]
    simp [hD, hDne]
  · unfold Player.handleProgressClick Player.seekToRatio
    have heq : clamp01 ((barLeft + r * barWidth - barLeft) / barWidth) = clamp01 r := by
      rw [add_sub_cancel_left, mul_div_cancel_right₀ _ hw]
    rw [heq]
    simp [hm, hpD, hDne]

theorem c3_witness :
    TrackPlayer.tpReady.audio.duration = 10 ∧ (0:ℚ) < 10 ∧ ((100:ℚ) ≠ 0) ∧
    (TrackPlayer.handleProgressClick 0 100 (0 + (3/2) * 100)
        TrackPlayer.tpReady).1.audio.currentTime = clamp01 (3/2) * 10 ∧
    clamp01 ((3:ℚ)/2) * 10 = 10 := by
  have h := c3_seek_clamped TrackPlayer.tpReady Player.plReady 10 0 100 (3/2)
    (by rfl) (by norm_num) (by norm_num) (by rfl) (by rfl)
  refine ⟨by rfl, by norm_num, by norm_num, h.1, by norm_num [clamp01]⟩

theorem mouseMoves_foldl (l w : ℚ) (xs : List ℚ) (s : TrackPlayer.TPState) :
    (xs.foldl (fun st x => TrackPlayer.handleMouseMove l w x st) s).audio = s.audio ∧
    (xs.foldl (fun st x => TrackPlayer.handleMouseMove l w x st) s).isScrubbing =
      s.isScrubbing ∧
    (xs.foldl (fun st x => TrackPlayer.handleMouseMove l w x st) s).progress =
      s.progress := by
  induction xs generalizing s with
  | nil => exact ⟨rfl, rfl, rfl⟩
  | cons x xs ih => exact ih (TrackPlayer.handleMouseMove l w x s)

/-- C5 (amended): in the TrackPlayer unit's drag handler, press and moves
only update the displayed provisional ratio (no pipeline command — the
handlers are pure state updates in the source) and the whole
press–move–release sequence issues exactly one real seek, at the release
ratio; the album Player's drag handler instead commits a real seek already
on the press and on every move (see the counterexample). -/
theorem c5_amended (l w x0 xn : ℚ) (xs : List ℚ) (s : TrackPlayer.TPState)
    (hD : s.audio.duration ≠ 0) :
    TrackPlayer.displayRatio (TrackPlayer.handleMouseDown l w x0 s) =
      TrackPlayer.getRatioFromClientX l w x0 ∧
    (∀ (x : ℚ) (st : TrackPlayer.TPState), st.isScrubbing = true →
      TrackPlayer.displayRatio (TrackPlayer.handleMouseMove l w x st) =
        TrackPlayer.getRatioFromClientX l w x ∧
      (TrackPlayer.handleMouseMove l w x st).audio = st.audio) ∧
    (TrackPlayer.tpMouseDrag l w x0 xs xn s).2 =
      [TrackPlayer.TPOut.seekSet
        (TrackPlayer.getRatioFromClientX l w xn * s.audio.duration)] ∧
    (TrackPlayer.tpMouseDrag l w x0 xs xn s).1.isScrubbing = false ∧
    TrackPlayer.displayRatio (TrackPlayer.tpMouseDrag l w x0 xs xn s).1 =
      TrackPlayer.getRatioFromClientX l w xn := by
  have hfold := mouseMoves_foldl l w xs (TrackPlayer.handleMouseDown l w x0 s)
  have haudio : (xs.foldl (fun st x => TrackPlayer.handleMouseMove l w x st)
      (TrackPlayer.handleMouseDown l w x0 s)).audio = s.audio := hfold.1
  refine ⟨?_, ?_, ?_⟩
  · simp [TrackPlayer.displayRatio, TrackPlayer.handleMouseDown]
  · intro x st hst
    constructor
    · simp [TrackPlayer.displayRatio, TrackPlayer.handleMouseMove, hst]
    · rfl
  · unfold TrackPlayer.tpMouseDrag TrackPlayer.handleMouseUp TrackPlayer.seekToRatio
    simp only [haudio]
    rw [if_neg hD]
    refine ⟨rfl, rfl, ?_⟩
    simp [TrackPlayer.displayRatio]

theorem c5_witness :
    TrackPlayer.tpReady.audio.duration ≠ 0 ∧
    (TrackPlayer.tpMouseDrag 0 100 30 [50] 70 TrackPlayer.tpReady).2 =
      [TrackPlayer.TPOut.seekSet
        (TrackPlayer.getRatioFromClientX 0 100 70 *
          TrackPlayer.tpReady.audio.duration)] := by
  have h := c5_amended 0 100 30 70 [50] TrackPlayer.tpReady (by norm_num [TrackPlayer.tpReady])
  exact ⟨by norm_num [TrackPlayer.tpReady], h.2.2.1⟩

/-- C5 counterexample: the album Player's drag handler calls
`handleProgressClick` (a real seek) already on the press: a press at ratio
0.3 followed directly by a release at ratio 0.7 over a 10 second track
issues two real seeks, `seekSet 3` at the press and `seekSet 7` at the
release, contradicting the claim that exactly one real seek is issued, on
release. -/
theorem c5_counterexample :
    (Player.mouseDrag 0 100 30 [] 70 Player.plReady).2 =
      [Player.PLOut.seekSet 3, Player.PLOut.seekSet 7] := by
  have h1 : clamp01 (((30:ℚ) - 0) / 100) = 3/10 := by
    rw [clamp01_eq_self (by norm_num) (by norm_num)]
    norm_num
  have h2 : clamp01 (((70:ℚ) - 0) / 100) = 7/10 := by
    rw [clamp01_eq_self (by norm_num) (by norm_num)]
    norm_num
  unfold Player.mouseDrag Player.handleMouseDown Player.handleMouseUp
    Player.handleProgressClick Player.seekToRatio
  simp [Player.plReady, h1, h2]
  refine ⟨?_, ?_⟩ <;> rw [clamp01_eq_self (by norm_num) (by norm_num)] <;> norm_num

theorem c2Inv_preserve (D : ℚ) (s sNew : TrackPlayer.TPState)
    (ha : sNew.audio.duration = s.audio.duration)
    (hd : sNew.duration = s.duration)
    (hp : sNew.progress = s.progress)
    (hc : sNew.currentTime = s.currentTime)
    (hs : sNew.isScrubbing = s.isScrubbing ∨ sNew.isScrubbing = true)
    (hInv : TrackPlayer.C2Inv D s) : TrackPlayer.C2Inv D sNew := by
  obtain ⟨hA, hdur, hzero, hmain⟩ := hInv
  have hform : TrackPlayer.displayFormula sNew = TrackPlayer.displayFormula s := by
    unfold TrackPlayer.displayFormula
    rw [hd, hc]
  refine ⟨?_, ?_, ?_, ?_⟩
  · rw [ha]
    exact hA
  · rw [ha, hd]
    exact hdur
  · intro h
    rw [ha] at h
    rw [hp, hc]
    exact hzero h
  · intro h
    rcases hs with hs | hs
    · rw [hp, hform]
      exact hmain (hs.symm.trans h)
    · rw [hs] at h
      simp at h

theorem c2Inv_seekToRatio (D : ℚ) (s : TrackPlayer.TPState) (r : ℚ)
    (hA : s.audio.duration = 0 ∨ s.audio.duration = D)
    (hdur : s.duration = s.audio.duration)
    (hzero : s.audio.duration = 0 → s.progress = 0 ∧ s.currentTime = 0)
    (hr0 : 0 ≤ r) (hr1 : r ≤ 1) :
    TrackPlayer.C2Inv D (TrackPlayer.seekToRatio r s).1 := by
  unfold TrackPlayer.seekToRatio
  by_cases h : s.audio.duration = 0
  · rw [if_pos h]
    refine ⟨Or.inl h, hdur, hzero, fun _ => ?_⟩
    unfold TrackPlayer.displayFormula
    rw [if_pos (hdur.trans h)]
    exact (hzero h).1
  · rw [if_neg h]
    refine ⟨hA, hdur, fun hc => absurd hc h, fun _ => ?_⟩
    unfold TrackPlayer.displayFormula
    show r = if s.duration = 0 then 0
      else clamp01 (r * s.audio.duration / s.duration)
    rw [if_neg (fun hc => h (hdur.symm.trans hc ▸ hc ▸ rfl))]
    rw [hdur, mul_div_cancel_right₀ _ h, clamp01_eq_self hr0 hr1]

theorem c2Inv_step (D : ℚ) (pid : String) (s : TrackPlayer.TPState)
    (e : TrackPlayer.TPEvent) (hInv : TrackPlayer.C2Inv D s)
    (hval : TrackPlayer.validEv D e = true) :
    TrackPlayer.C2Inv D (TrackPlayer.tpStep pid s e).1 := by
  obtain ⟨hA, hdur, hzero, hmain⟩ := hInv
  cases e with
  | loadedMetadata d =>
    have hvd : d = D := by
      simp only [TrackPlayer.validEv] at hval
      exact of_decide_eq_true hval
    show TrackPlayer.C2Inv D (TrackPlayer.handleLoadedMetadata d s)
    unfold TrackPlayer.handleLoadedMetadata TrackPlayer.markReady
    by_cases hd0 : d = 0
    · rw [if_pos hd0]
      have hold : s.audio.duration = 0 := by
        rcases hA with hA | hA
        · exact hA
        · rw [hA, ← hvd, hd0]
      refine ⟨Or.inl hd0, ?_, ?_, fun h => ?_⟩
      · show s.duration = d
        rw [hdur, hold, hd0]
      · intro _
        exact hzero hold
      · show s.progress = TrackPlayer.displayFormula _
        unfold TrackPlayer.displayFormula
        rw [if_pos (show s.duration = 0 from hdur.trans hold)]
        exact (hzero hold).1
    · rw [if_neg hd0]
      refine ⟨Or.inr hvd, rfl, fun hc => absurd hc hd0, fun h => ?_⟩
      show s.progress = TrackPlayer.displayFormula _
      unfold TrackPlayer.displayFormula
      rw [if_neg hd0]
      show s.progress = clamp01 (s.currentTime / d)
      by_cases hold : s.audio.duration = 0
      · rw [(hzero hold).1, (hzero hold).2, zero_div]
        norm_num [Mariela.clamp01]
      · have hDold : s.audio.duration = D := hA.resolve_left hold
        have hdd : s.duration = d := by rw [hdur, hDold, hvd]
        have := hmain h
        unfold TrackPlayer.displayFormula at this
        rw [if_neg (fun hc => hold (hdur.symm.trans hc ▸ hc ▸ rfl)), hdd] at this
        exact this
  | playEvent =>
    exact c2Inv_preserve D s _ rfl rfl rfl rfl (Or.inl rfl) ⟨hA, hdur, hzero, hmain⟩
  | pauseEvent =>
    exact c2Inv_preserve D s _ rfl rfl rfl rfl (Or.inl rfl) ⟨hA, hdur, hzero, hmain⟩
  | timeUpdate t =>
    have ht : 0 ≤ t ∧ t ≤ D := by
      simp only [TrackPlayer.validEv] at hval
      exact of_decide_eq_true hval
    show TrackPlayer.C2Inv D (TrackPlayer.handleTimeUpdate t s)
    unfold TrackPlayer.handleTimeUpdate
    by_cases h : s.audio.duration = 0
    · rw [if_pos h]
      exact c2Inv_preserve D s _ rfl rfl rfl rfl (Or.inl rfl) ⟨hA, hdur, hzero, hmain⟩
    · rw [if_neg h]
      by_cases hscr : s.isScrubbing = true
      · rw [if_pos hscr]
        refine ⟨hA, hdur, fun hc => absurd hc h, fun hfalse => ?_⟩
        have hsf : s.isScrubbing = false := hfalse
        rw [hsf] at hscr
        exact Bool.noConfusion hscr
      · rw [if_neg hscr]
        have hD : s.audio.duration = D := hA.resolve_left h
        have hDpos : 0 < D := by
          refine (le_trans ht.1 ht.2).lt_of_ne (fun heq => ?_)
          exact h (hD.trans heq.symm)
        refine ⟨hA, hdur, fun hc => absurd hc h, fun _ => ?_⟩
        unfold TrackPlayer.displayFormula
        show t / s.audio.duration = if s.duration = 0 then 0
          else clamp01 (t / s.duration)
        rw [if_neg (fun hc => h (hdur.symm.trans hc ▸ hc ▸ rfl)), hdur, hD,
          clamp01_eq_self (div_nonneg ht.1 hDpos.le) ((div_le_one hDpos).mpr ht.2)]
  | ended =>
    show TrackPlayer.C2Inv D (TrackPlayer.handleEnded s)
    refine ⟨hA, hdur, fun _ => ⟨rfl, rfl⟩, fun _ => ?_⟩
    unfold TrackPlayer.displayFormula
    show (0:ℚ) = if s.duration = 0 then 0 else clamp01 (0 / s.duration)
    by_cases h : s.duration = 0
    · rw [if_pos h]
    · rw [if_neg h, zero_div]
      norm_num [Mariela.clamp01]
  | userToggle =>
    show TrackPlayer.C2Inv D (TrackPlayer.togglePlay pid s).1
    unfold TrackPlayer.togglePlay
    by_cases hp : s.audio.paused = true
    · rw [if_pos hp]
      exact c2Inv_preserve D s _ rfl rfl rfl rfl (Or.inl rfl) ⟨hA, hdur, hzero, hmain⟩
    · rw [if_neg hp]
      exact c2Inv_preserve D s _ rfl rfl rfl rfl (Or.inl rfl) ⟨hA, hdur, hzero, hmain⟩
  | externalPlay sender =>
    show TrackPlayer.C2Inv D (TrackPlayer.handleExternalPlay pid sender s).1
    unfold TrackPlayer.handleExternalPlay
    cases sender with
    | none => exact ⟨hA, hdur, hzero, hmain⟩
    | some sid =>
      show TrackPlayer.C2Inv D
        (if sid = pid then (s, [])
         else if s.audio.paused = true then (s, [])
         else ({ s with audio := { s.audio with paused := true } },
           [TrackPlayer.TPOut.pauseRequest])).1
      by_cases h1 : sid = pid
      · rw [if_pos h1]
        exact ⟨hA, hdur, hzero, hmain⟩
      · rw [if_neg h1]
        by_cases h2 : s.audio.paused = true
        · rw [if_pos h2]
          exact ⟨hA, hdur, hzero, hmain⟩
        · rw [if_neg h2]
          exact c2Inv_preserve D s _ rfl rfl rfl rfl (Or.inl rfl) ⟨hA, hdur, hzero, hmain⟩
  | click l w x =>
    exact c2Inv_seekToRatio D s _ hA hdur hzero (clamp01_nonneg _) (clamp01_le_one _)
  | mouseDown l w x =>
    exact c2Inv_preserve D s _ rfl rfl rfl rfl (Or.inr rfl) ⟨hA, hdur, hzero, hmain⟩
  | mouseMove l w x =>
    exact c2Inv_preserve D s _ rfl rfl rfl rfl (Or.inl rfl) ⟨hA, hdur, hzero, hmain⟩
  | mouseUp l w x =>
    exact c2Inv_seekToRatio D { s with isScrubbing := false } _ hA hdur hzero
      (clamp01_nonneg _) (clamp01_le_one _)
  | touchStart touch l w =>
    cases touch with
    | none => exact ⟨hA, hdur, hzero, hmain⟩
    | some x =>
      exact c2Inv_preserve D s _ rfl rfl rfl rfl (Or.inr rfl) ⟨hA, hdur, hzero, hmain⟩
  | touchMove touch l w =>
    cases touch with
    | none => exact ⟨hA, hdur, hzero, hmain⟩
    | some x =>
      exact c2Inv_preserve D s _ rfl rfl rfl rfl (Or.inl rfl) ⟨hA, hdur, hzero, hmain⟩
  | touchEnd touch l w =>
    cases touch with
    | none => simp [TrackPlayer.validEv] at hval
    | some x =>
      exact c2Inv_seekToRatio D { s with isScrubbing := false } _ hA hdur hzero
        (clamp01_nonneg _) (clamp01_le_one _)

theorem c2Inv_run (D : ℚ) (pid : String) (es : List TrackPlayer.TPEvent)
    (s : TrackPlayer.TPState) (hInv : TrackPlayer.C2Inv D s)
    (hval : ∀ e ∈ es, TrackPlayer.validEv D e = true) :
    TrackPlayer.C2Inv D (TrackPlayer.tpRun pid s es) := by
  induction es generalizing s with
  | nil => exact hInv
  | cons e es ih =>
    exact ih (TrackPlayer.tpStep pid s e).1
      (c2Inv_step D pid s e hInv (hval e (List.mem_cons_self e es)))
      (fun ev hev => hval ev (List.mem_cons_of_mem e hev))

theorem c2Inv_init (D : ℚ) : TrackPlayer.C2Inv D TrackPlayer.tpInit := by
  refine ⟨Or.inl rfl, rfl, fun _ => ⟨rfl, rfl⟩, fun _ => ?_⟩
  unfold TrackPlayer.displayFormula
  norm_num [TrackPlayer.tpInit]

/-- C2 (amended): the displayed progress ratio equals the scrub overlay
ratio whenever the overlay is present; in every state reached by a pipeline
sane trace whose touch-end events carry a touch point, the displayed ratio
with the overlay absent equals position/duration clamped to the unit
interval (0 when the duration is 0 or unknown); while the overlay is
present, position-advanced events never change the displayed ratio yet still
update the real position field; and a mouse release exits the overlay with
the display immediately equal to the committed seek ratio. (A touch-end with
no active touch point can break the displayed-ratio equation: see the
counterexample.) -/
theorem c2_amended (D : ℚ) (pid : String) (es : List TrackPlayer.TPEvent)
    (hval : ∀ e ∈ es, TrackPlayer.validEv D e = true) :
    (((TrackPlayer.tpRun pid TrackPlayer.tpInit es).isScrubbing = true →
        TrackPlayer.displayRatio (TrackPlayer.tpRun pid TrackPlayer.tpInit es) =
          (TrackPlayer.tpRun pid TrackPlayer.tpInit es).scrubProgress) ∧
      ((TrackPlayer.tpRun pid TrackPlayer.tpInit es).isScrubbing = false →
        TrackPlayer.displayRatio (TrackPlayer.tpRun pid TrackPlayer.tpInit es) =
          TrackPlayer.displayFormula (TrackPlayer.tpRun pid TrackPlayer.tpInit es))) ∧
    (∀ (s : TrackPlayer.TPState) (t : ℚ), s.isScrubbing = true →
      TrackPlayer.displayRatio (TrackPlayer.handleTimeUpdate t s) =
        TrackPlayer.displayRatio s ∧
      (s.audio.duration ≠ 0 →
        (TrackPlayer.handleTimeUpdate t s).currentTime = t)) ∧
    (∀ (s : TrackPlayer.TPState) (l w x : ℚ), s.audio.duration ≠ 0 →
      (TrackPlayer.handleMouseUp l w x s).1.isScrubbing = false ∧
      TrackPlayer.displayRatio (TrackPlayer.handleMouseUp l w x s).1 =
        TrackPlayer.getRatioFromClientX l w x ∧
      (TrackPlayer.handleMouseUp l w x s).2 =
        [TrackPlayer.TPOut.seekSet
          (TrackPlayer.getRatioFromClientX l w x * s.audio.duration)]) := by
  refine ⟨⟨?_, ?_⟩, ?_, ?_⟩
  · intro h
    unfold TrackPlayer.displayRatio
    rw [h]
    simp
  · intro h
    have hInv := c2Inv_run D pid es TrackPlayer.tpInit (c2Inv_init D) hval
    unfold TrackPlayer.displayRatio
    rw [h]
    simp
    exact hInv.2.2.2 h
  · intro s t hs
    constructor
    · unfold TrackPlayer.handleTimeUpdate
      by_cases h : s.audio.duration = 0
      · rw [if_pos h]
        rfl
      · rw [if_neg h, if_pos hs]
        unfold TrackPlayer.displayRatio
        rfl
    · intro hd
      unfold TrackPlayer.handleTimeUpdate
      rw [if_neg hd, if_pos hs]
  · intro s l w x hd
    unfold TrackPlayer.handleMouseUp TrackPlayer.seekToRatio
    rw [if_neg hd]
    refine ⟨rfl, ?_, rfl⟩
    unfold TrackPlayer.displayRatio
    simp

theorem c2_amended_witness :
    (∀ e ∈ [TrackPlayer.TPEvent.loadedMetadata (10:ℚ),
        TrackPlayer.TPEvent.timeUpdate 4],
      TrackPlayer.validEv 10 e = true) ∧
    TrackPlayer.displayRatio (TrackPlayer.tpRun "p" TrackPlayer.tpInit
        [TrackPlayer.TPEvent.loadedMetadata 10, TrackPlayer.TPEvent.timeUpdate 4]) =
      TrackPlayer.displayFormula (TrackPlayer.tpRun "p" TrackPlayer.tpInit
        [TrackPlayer.TPEvent.loadedMetadata 10, TrackPlayer.TPEvent.timeUpdate 4]) := by
  have hval : ∀ e ∈ [TrackPlayer.TPEvent.loadedMetadata (10:ℚ),
      TrackPlayer.TPEvent.timeUpdate 4], TrackPlayer.validEv 10 e = true := by
    decide
  exact ⟨hval, (c2_amended 10 "p" _ hval).1.2 (by rfl)⟩

/-- C2 counterexample: after metadata reports duration 10, a touch scrub
starts at ratio 0.2, the pipeline advances to 9 seconds during the scrub,
and a touch-end carrying no touch point exits the overlay without a
committed seek: the overlay is then absent yet the displayed ratio is 0
while position/duration clamped is 9/10, so the claimed display equation for
the overlay-absent case fails in this reachable state. -/
theorem c2_counterexample :
    (TrackPlayer.tpRun "p" TrackPlayer.tpInit TrackPlayer.c2BadTrace).isScrubbing
      = false ∧
    TrackPlayer.displayRatio
      (TrackPlayer.tpRun "p" TrackPlayer.tpInit TrackPlayer.c2BadTrace) = 0 ∧
    TrackPlayer.displayFormula
      (TrackPlayer.tpRun "p" TrackPlayer.tpInit TrackPlayer.c2BadTrace) = 9/10 := by
  have hdur : (TrackPlayer.tpRun "p" TrackPlayer.tpInit
      TrackPlayer.c2BadTrace).duration = 10 := by rfl
  have hct : (TrackPlayer.tpRun "p" TrackPlayer.tpInit
      TrackPlayer.c2BadTrace).currentTime = 9 := by rfl
  have hscr : (TrackPlayer.tpRun "p" TrackPlayer.tpInit
      TrackPlayer.c2BadTrace).isScrubbing = false := by rfl
  have hpr : (TrackPlayer.tpRun "p" TrackPlayer.tpInit
      TrackPlayer.c2BadTrace).progress = 0 := by rfl
  refine ⟨hscr, ?_, ?_⟩
  · unfold TrackPlayer.displayRatio
    rw [hscr]
    simp [hpr]
  · unfold TrackPlayer.displayFormula
    rw [hdur, hct, if_neg (by norm_num),
      clamp01_eq_self (by norm_num) (by norm_num)]

end Mariela